import Mathlib

/-!
Verification of the checkpoint manager in
`src/snorkel/mtl/loggers/checkpointer.py` (class `Checkpointer`).

Shallow embedding notes.
* Python dicts are modelled as association lists in insertion order:
  inserting an existing key updates the binding in place, inserting a new
  key appends at the end, exactly as CPython dicts behave.  `dlookup`
  returns the first (hence only, for dict-built lists) binding.
* Metric values are `float` in the source; only their linear order is used
  by the logic, so they are modelled as `Int`.
* File-system effects (torch.save, shutil.copyfile, os.remove, glob.glob)
  are modelled as explicit effect lists over path strings; the directory
  is a list of file names.
* `str.split(":")` is modelled character by character by `pySplit`.
-/

namespace Checkpointer

/-- Lookup in a Python-dict association list: first binding for the key. -/
def dlookup {α : Type} (k : String) : List (String × α) → Option α
  | [] => none
  | (k', v) :: rest => if k' = k then some v else dlookup k rest

/-- Python `d[k] = v`: update the existing binding in place, or append. -/
def dinsert {α : Type} (k : String) (v : α) : List (String × α) → List (String × α)
  | [] => [(k, v)]
  | (k', v') :: rest => if k' = k then (k, v) :: rest else (k', v') :: dinsert k v rest

/-- Python `d.update(e)`: insert every binding of `e` into `d`, in order. -/
def dupdate {α : Type} (d e : List (String × α)) : List (String × α) :=
  e.foldl (fun acc kv => dinsert kv.1 kv.2 acc) d

/-- Split a character list at every occurrence of `sep`
(models Python `str.split` with a one-character separator). -/
def splitCh (sep : Char) : List Char → List (List Char)
  | [] => [[]]
  | c :: rest =>
    let r := splitCh sep rest
    if c = sep then [] :: r
    else
      match r with
      | [] => [[c]]
      | g :: gs => (c :: g) :: gs

/-- Python `s.split(sep)` for a one-character separator. -/
def pySplit (sep : Char) (s : String) : List String :=
  (splitCh sep s.data).map fun l => String.mk l

/-- The `ValueError`s raised by the source, with the data each message
carries (`ConfigurationError` in the design document). -/
inductive CfgError where
  | malformedEntry (entry : String)
  | badMode (metric : String) (mode : String)
  | badFreq (freq : Int)
  deriving DecidableEq, Repr

/-- Loop body of `Checkpointer._make_metric_map`: `metric, mode =
metric_mode.split(":")` raises unless the split has exactly two parts;
then the mode must be `"min"` or `"max"`; then `metric_mode_map[metric] = mode`. -/
def makeMetricMapAux (acc : List (String × String)) :
    List String → Except CfgError (List (String × String))
  | [] => .ok acc
  | metric_mode :: rest =>
    match pySplit ':' metric_mode with
    | [metric, mode] =>
      if mode = "min" ∨ mode = "max" then
        makeMetricMapAux (dinsert metric mode acc) rest
      else
        .error (.badMode metric mode)
    | _ => .error (.malformedEntry metric_mode)

/-- `Checkpointer._make_metric_map`: `None` gives the empty map, otherwise
the entries are parsed in order into a metric-to-mode dict. -/
def _make_metric_map : Option (List String) → Except CfgError (List (String × String))
  | none => .ok []
  | some metric_mode_list => makeMetricMapAux [] metric_mode_list

/-- The configuration fields `Checkpointer.__init__` reads (from
`config["checkpointer_config"]` and the surrounding logging config). -/
structure Config where
  counter_unit : String
  checkpoint_dir : String
  checkpoint_clear : Bool
  checkpoint_runway : Int
  checkpoint_metric : String
  checkpoint_task_metrics : Option (List String)
  evaluation_freq : Int
  checkpoint_factor : Int
  deriving DecidableEq, Repr

/-- The mutable instance fields of a constructed `Checkpointer`. -/
structure CState where
  checkpoint_dir : String
  checkpoint_clear : Bool
  checkpoint_runway : Int
  checkpoint_condition_met : Bool
  /-- `checkpoint_metric`: the one-entry map for the primary metric. -/
  checkpoint_metric : List (String × String)
  /-- `checkpoint_task_metrics` after `update(checkpoint_metric)`. -/
  checkpoint_task_metrics : List (String × String)
  checkpoint_freq : Int
  best_metric_dict : List (String × Int)
  deriving DecidableEq, Repr

/-- `Checkpointer.__init__`: builds and merges the metric maps (primary
merged last, so it wins on conflict), computes
`checkpoint_freq = evaluation_freq * checkpoint_factor` and raises when it
is not positive, and starts with an empty `best_metric_dict` and the
runway gate closed.  A `.error` result is a constructor raise: no
checkpointing can happen afterwards. -/
def mkCheckpointer (config : Config) : Except CfgError CState := do
  let cm ← _make_metric_map (some [config.checkpoint_metric])
  let ctm ← _make_metric_map config.checkpoint_task_metrics
  let merged := dupdate ctm cm
  let freq := config.evaluation_freq * config.checkpoint_factor
  if freq ≤ 0 then
    .error (.badFreq freq)
  else
    .ok { checkpoint_dir := config.checkpoint_dir
          checkpoint_clear := config.checkpoint_clear
          checkpoint_runway := config.checkpoint_runway
          checkpoint_condition_met := false
          checkpoint_metric := cm
          checkpoint_task_metrics := merged
          checkpoint_freq := freq
          best_metric_dict := [] }

/-- A metric snapshot (`metric_dict` argument): metric name to value,
in dict iteration order. -/
abbrev MetricDict := List (String × Int)

/-- Loop body of `Checkpointer.is_new_best`, one `metric` of the
`for metric in metric_dict` loop.  The accumulator carries the
`best_metric` set (as a list) and the updated `best_metric_dict`. -/
def isNewBestStep (tracked : List (String × String))
    (acc : List String × List (String × Int)) (e : String × Int) :
    List String × List (String × Int) :=
  let (best_metric, best) := acc
  let (metric, v) := e
  match dlookup metric tracked with
  | none => (best_metric, best)
  | some mode =>
    match dlookup metric best with
    | none => (best_metric ++ [metric], dinsert metric v best)
    | some b =>
      if mode = "max" ∧ v > b then (best_metric ++ [metric], dinsert metric v best)
      else if mode = "min" ∧ v < b then (best_metric ++ [metric], dinsert metric v best)
      else (best_metric, best)

/-- `Checkpointer.is_new_best(metric_dict)`: returns the set of newly
best metric names together with the updated `best_metric_dict`
(the source mutates the field; here the update is returned). -/
def is_new_best (tracked : List (String × String)) (best : List (String × Int))
    (metric_dict : MetricDict) : List String × List (String × Int) :=
  metric_dict.foldl (isNewBestStep tracked) ([], best)

/-- The file-system effects of one `checkpoint` call: how many
"checkpoint_runway condition has been met" notices were logged, which
paths were written by `torch.save`, and which `(src, dst)` pairs were
copied by `copyfile`. -/
structure Effects where
  notices : Nat
  saved : List String
  copies : List (String × String)
  deriving DecidableEq, Repr

/-- `metric.replace("/", "_")`. -/
def sanitize (metric : String) : String :=
  String.mk (metric.data.map fun c => if c = '/' then '_' else c)

/-- `Checkpointer.checkpoint(iteration, ..., metric_dict)`.  Returns the
updated state and the effects.  `not set(tracked).isdisjoint(set(metric_dict))`
is the `List.any` test below. -/
def checkpoint (s : CState) (iteration : Int) (metric_dict : MetricDict) :
    CState × Effects :=
  if iteration < s.checkpoint_runway then
    (s, { notices := 0, saved := [], copies := [] })
  else
    let (s, notices) :=
      if ¬ s.checkpoint_condition_met ∧ iteration ≥ s.checkpoint_runway then
        ({ s with checkpoint_condition_met := true }, 1)
      else (s, 0)
    let checkpoint_path := s.checkpoint_dir ++ "/checkpoint_" ++ toString iteration ++ ".pth"
    if metric_dict.any fun e => (dlookup e.1 s.checkpoint_task_metrics).isSome then
      let (new_best_metrics, best) := is_new_best s.checkpoint_task_metrics s.best_metric_dict metric_dict
      let copies := new_best_metrics.map fun metric =>
        (checkpoint_path, s.checkpoint_dir ++ "/best_model_" ++ sanitize metric ++ ".pth")
      ({ s with best_metric_dict := best },
       { notices := notices, saved := [checkpoint_path], copies := copies })
    else
      (s, { notices := notices, saved := [checkpoint_path], copies := [] })

/-- A sequence of `checkpoint` calls; the effects are concatenated. -/
def runCk (s : CState) : List (Int × MetricDict) → CState × Effects
  | [] => (s, { notices := 0, saved := [], copies := [] })
  | e :: rest =>
    let (s1, ef1) := checkpoint s e.1 e.2
    let (s2, ef2) := runCk s1 rest
    (s2, { notices := ef1.notices + ef2.notices,
           saved := ef1.saved ++ ef2.saved,
           copies := ef1.copies ++ ef2.copies })

/-- `p` is an initial segment of `l` (character-list test used to model
glob matching on file names). -/
def leadsWith : List Char → List Char → Bool
  | [], _ => true
  | _ :: _, [] => false
  | a :: as, b :: bs => a = b && leadsWith as bs

/-- `p` is a final segment of `l`. -/
def trailsWith (p l : List Char) : Bool :=
  leadsWith p.reverse l.reverse

/-- A file name matches the glob pattern `checkpoint_*.pth` used in
`Checkpointer.clear` exactly when it is `checkpoint_` ++ anything ++ `.pth`
(`*` matches any run of characters of a file name). -/
def matchesCheckpointGlob (name : String) : Bool :=
  leadsWith "checkpoint_".data name.data &&
    trailsWith ".pth".data (name.data.drop "checkpoint_".data.length)

/-- `glob.glob(f"{checkpoint_dir}/checkpoint_*.pth")` over the names in
the checkpoint directory. -/
def globCheckpoints (files : List String) : List String :=
  files.filter matchesCheckpointGlob

/-- The `for file in file_list: os.remove(file)` loop when `os.remove`
may raise: `fails f = true` means removing `f` raises `OSError`.  Returns
the list of files whose removal was attempted, in order, and the file
whose removal raised (the loop and the whole call abort there), if any. -/
def removeLoop (fails : String → Bool) : List String → List String × Option String
  | [] => ([], none)
  | f :: rest =>
    if fails f then ([f], some f)
    else
      let (attempted, err) := removeLoop fails rest
      (f :: attempted, err)

/-- `Checkpointer.clear()` over a directory listing: when
`checkpoint_clear` is set, removes every file matching
`checkpoint_*.pth`; otherwise does nothing.  First component: removals
attempted; second: the error that aborted the loop, if any. -/
def clear (checkpoint_clear : Bool) (fails : String → Bool) (files : List String) :
    List String × Option String :=
  if checkpoint_clear then removeLoop fails (globCheckpoints files)
  else ([], none)

/-- `Checkpointer.load_best_model(model)` for a model state of type `μ`.
`primary` is `list(self.checkpoint_metric.keys())[0]`; `loadFromPath p m`
abstracts the `torch.load` of `p` followed by restoring name and
parameters into `m` and `_move_to_device` (out of scope per the spec).
When the primary metric has no entry in `best_metric_dict` the input
model is returned unchanged (only a log line is emitted). -/
def load_best_model {μ : Type} (s : CState) (primary : String) (model : μ)
    (loadFromPath : String → μ → μ) : μ :=
  if (dlookup primary s.best_metric_dict).isNone then
    model
  else
    loadFromPath (s.checkpoint_dir ++ "/best_model_" ++ sanitize primary ++ ".pth") model

/-- The exact condition under which `is_new_best` marks `metric` (with
incoming value `v`) as newly best against record `best`. -/
def newBestCond (tracked : List (String × String)) (best : List (String × Int))
    (metric : String) (v : Int) : Bool :=
  match dlookup metric tracked with
  | none => false
  | some mode =>
    match dlookup metric best with
    | none => true
    | some b => (mode == "max" && decide (v > b)) || (mode == "min" && decide (v < b))

/-- What a single supplied value `mdv` for metric `m` does to the
recorded best, per the `is_new_best` rules. -/
def expectedLookup (tracked : List (String × String)) (best : List (String × Int))
    (m : String) (mdv : Option Int) : Option Int :=
  match mdv with
  | none => dlookup m best
  | some v => if newBestCond tracked best m v then some v else dlookup m best

/-- `oBetter f old v`: the record after offering value `v` against an
optional previous record, combining with `f` (`max` or `min`). -/
def oBetter (f : Int → Int → Int) : Option Int → Int → Int
  | none, v => v
  | some b, v => f b v

/-- Fold `oBetter` over a list of offered values. -/
def foldBest (f : Int → Int → Int) : Option Int → List Int → Option Int
  | acc, [] => acc
  | acc, v :: r => foldBest f (some (oBetter f acc v)) r

/-- All values supplied for metric `m` by a sequence of checkpoint
events, in order. -/
def suppliedVals (m : String) (evs : List (Int × MetricDict)) : List Int :=
  evs.filterMap fun e => dlookup m e.2

/-- An entry that `_make_metric_map` accepts: exactly one colon and a
mode that is literally `min` or `max`. -/
def entryValid (e : String) : Bool :=
  match pySplit ':' e with
  | [_, mode] => mode == "min" || mode == "max"
  | _ => false

/-! ### Concrete instances used by the witnesses -/

/-- A small constructed state: runway 0, primary metric `acc` (max),
secondary metric `loss` (min), nothing recorded yet. -/
def exState : CState :=
  { checkpoint_dir := "d"
    checkpoint_clear := true
    checkpoint_runway := 0
    checkpoint_condition_met := false
    checkpoint_metric := [("acc", "max")]
    checkpoint_task_metrics := [("acc", "max"), ("loss", "min")]
    checkpoint_freq := 1
    best_metric_dict := [] }

/-- A small directory listing with one transient checkpoint, one best
model and one unrelated file. -/
def exFiles : List String := ["checkpoint_1.pth", "best_model_acc.pth", "notes.txt"]

/-- A well-formed configuration. -/
def exCfg : Config :=
  { counter_unit := "epochs"
    checkpoint_dir := "d"
    checkpoint_clear := true
    checkpoint_runway := 0
    checkpoint_metric := "acc:max"
    checkpoint_task_metrics := some ["loss:min"]
    evaluation_freq := 2
    checkpoint_factor := 3 }

/-- `exCfg` with a zero cadence factor. -/
def exCfgBad : Config := { exCfg with checkpoint_factor := 0 }

/-! ### Sanity examples -/

example : pySplit ':' "loss:min" = ["loss", "min"] := by decide
example : pySplit ':' "loss" = ["loss"] := by decide
example : pySplit ':' "a:b:c" = ["a", "b", "c"] := by decide
example : pySplit ':' ":max" = ["", "max"] := by decide
example : pySplit ':' "" = [""] := by decide
example : _make_metric_map (some ["loss:min", "acc:max"]) =
    .ok [("loss", "min"), ("acc", "max")] := rfl
example : _make_metric_map (some ["loss"]) = .error (.malformedEntry "loss") := rfl
example : _make_metric_map (some ["loss:avg"]) = .error (.badMode "loss" "avg") := rfl

/-! ### Association-list lemmas -/

theorem dlookup_dinsert_self {α : Type} (k : String) (v : α) (d : List (String × α)) :
    dlookup k (dinsert k v d) = some v := by
  induction d with
  | nil => simp [dinsert, dlookup]
  | cons kv rest ih =>
    obtain ⟨k', v'⟩ := kv
    by_cases h : k' = k
    · simp [dinsert, h, dlookup]
    · simp [dinsert, h, dlookup, ih]

theorem dlookup_dinsert_ne {α : Type} {k k' : String} (h : k' ≠ k) (v : α)
    (d : List (String × α)) : dlookup k (dinsert k' v d) = dlookup k d := by
  induction d with
  | nil => simp [dinsert, dlookup, h]
  | cons kv rest ih =>
    obtain ⟨a, b⟩ := kv
    by_cases ha : a = k'
    · subst ha
      simp [dinsert, dlookup, h]
    · by_cases hk : a = k
      · subst hk
        simp [dinsert, ha, dlookup, Ne.symm h]
      · simp [dinsert, ha, dlookup, hk, ih]

/-! ### Characterisation of `is_new_best` -/

theorem newBestCond_untracked {tracked : List (String × String)}
    {metric : String} (h : dlookup metric tracked = none)
    (best : List (String × Int)) (v : Int) :
    newBestCond tracked best metric v = false := by
  simp [newBestCond, h]

theorem newBestCond_first {tracked : List (String × String)} {metric : String}
    {mode : String} (h1 : dlookup metric tracked = some mode)
    {best : List (String × Int)} (h2 : dlookup metric best = none) (v : Int) :
    newBestCond tracked best metric v = true := by
  simp [newBestCond, h1, h2]

theorem newBestCond_seen {tracked : List (String × String)} {metric : String}
    {mode : String} (h1 : dlookup metric tracked = some mode)
    {best : List (String × Int)} {b : Int} (h2 : dlookup metric best = some b) (v : Int) :
    newBestCond tracked best metric v =
      ((mode == "max" && decide (v > b)) || (mode == "min" && decide (v < b))) := by
  simp [newBestCond, h1, h2]

theorem isNewBestStep_eq (tracked : List (String × String)) (bm : List String)
    (best : List (String × Int)) (metric : String) (v : Int) :
    isNewBestStep tracked (bm, best) (metric, v) =
      (if newBestCond tracked best metric v then bm ++ [metric] else bm,
       if newBestCond tracked best metric v then dinsert metric v best else best) := by
  rcases htr : dlookup metric tracked with _ | mode
  · simp [isNewBestStep, htr, newBestCond_untracked htr]
  · rcases hb : dlookup metric best with _ | b
    · simp [isNewBestStep, htr, hb, newBestCond_first htr hb]
    · rw [isNewBestStep, newBestCond_seen htr hb]
      by_cases h1 : mode = "max" ∧ v > b
      · simp [htr, hb, h1]
      · by_cases h2 : mode = "min" ∧ v < b
        · simp [htr, hb, h1, h2]
        · simp only [htr, hb]
          rw [if_neg h1, if_neg h2]
          have hc : ((mode == "max" && decide (v > b)) || (mode == "min" && decide (v < b))) = false := by
            rw [not_and_or] at h1 h2
            rcases h1 with h1 | h1 <;> rcases h2 with h2 | h2 <;>
              simp [h1, h2]
          simp [hc]

theorem newBestCond_congr (tracked : List (String × String))
    {b1 b2 : List (String × Int)} (metric : String) (v : Int)
    (h : dlookup metric b1 = dlookup metric b2) :
    newBestCond tracked b1 metric v = newBestCond tracked b2 metric v := by
  unfold newBestCond
  rw [h]

theorem expectedLookup_congr (tracked : List (String × String))
    {b1 b2 : List (String × Int)} (m : String) (mdv : Option Int)
    (h : dlookup m b1 = dlookup m b2) :
    expectedLookup tracked b1 m mdv = expectedLookup tracked b2 m mdv := by
  rcases mdv with _ | v
  · simpa [expectedLookup] using h
  · simp only [expectedLookup]
    rw [newBestCond_congr tracked m v h, h]

theorem isNewBest_fold_lookup_notMem (tracked : List (String × String)) (m : String)
    (md : MetricDict) : ∀ (bm : List String) (best : List (String × Int)),
    m ∉ md.map Prod.fst →
    dlookup m (md.foldl (isNewBestStep tracked) (bm, best)).2 = dlookup m best := by
  induction md with
  | nil => intro bm best _; rfl
  | cons e rest ih =>
    intro bm best hm
    obtain ⟨k, v⟩ := e
    simp only [List.map_cons, List.mem_cons, not_or] at hm
    obtain ⟨hk, hrest⟩ := hm
    rw [List.foldl_cons, isNewBestStep_eq]
    by_cases hc : newBestCond tracked best k v
    · rw [if_pos hc, if_pos hc, ih _ _ hrest, dlookup_dinsert_ne (Ne.symm hk)]
    · rw [if_neg hc, if_neg hc, ih _ _ hrest]

theorem isNewBest_fold_marked_notMem (tracked : List (String × String)) (m : String)
    (md : MetricDict) : ∀ (bm : List String) (best : List (String × Int)),
    m ∉ md.map Prod.fst →
    (m ∈ (md.foldl (isNewBestStep tracked) (bm, best)).1 ↔ m ∈ bm) := by
  induction md with
  | nil => intro bm best _; rfl
  | cons e rest ih =>
    intro bm best hm
    obtain ⟨k, v⟩ := e
    simp only [List.map_cons, List.mem_cons, not_or] at hm
    obtain ⟨hk, hrest⟩ := hm
    rw [List.foldl_cons, isNewBestStep_eq]
    by_cases hc : newBestCond tracked best k v
    · rw [if_pos hc, if_pos hc, ih _ _ hrest]
      simp [hk]
    · rw [if_neg hc, if_neg hc, ih _ _ hrest]

/-- Effect of one `is_new_best` pass on the record of a single metric
`m`, for a snapshot with distinct keys (always true of a Python dict). -/
theorem isNewBest_fold_lookup (tracked : List (String × String)) (m : String)
    (md : MetricDict) : ∀ (bm : List String) (best : List (String × Int)),
    (md.map Prod.fst).Nodup →
    dlookup m (md.foldl (isNewBestStep tracked) (bm, best)).2 =
      expectedLookup tracked best m (dlookup m md) := by
  induction md with
  | nil => intro bm best _; rfl
  | cons e rest ih =>
    intro bm best hnd
    obtain ⟨k, v⟩ := e
    simp only [List.map_cons, List.nodup_cons] at hnd
    obtain ⟨hk, hrest⟩ := hnd
    rw [List.foldl_cons, isNewBestStep_eq]
    by_cases hkm : k = m
    · subst hkm
      have hlk : dlookup k ((k, v) :: rest) = some v := by simp [dlookup]
      rw [hlk]
      by_cases hc : newBestCond tracked best k v
      · rw [if_pos hc, if_pos hc, isNewBest_fold_lookup_notMem tracked k rest _ _ hk,
          dlookup_dinsert_self]
        simp [expectedLookup, hc]
      · rw [if_neg hc, if_neg hc, isNewBest_fold_lookup_notMem tracked k rest _ _ hk]
        simp [expectedLookup, hc]
    · have hlk : dlookup m ((k, v) :: rest) = dlookup m rest := by simp [dlookup, hkm]
      rw [hlk]
      by_cases hc : newBestCond tracked best k v
      · rw [if_pos hc, if_pos hc, ih _ _ hrest,
          expectedLookup_congr tracked m _ (dlookup_dinsert_ne hkm v best)]
      · rw [if_neg hc, if_neg hc, ih _ _ hrest]

/-- Which metrics one `is_new_best` pass marks as newly best, for a
snapshot with distinct keys. -/
theorem isNewBest_fold_marked (tracked : List (String × String)) (m : String)
    (md : MetricDict) : ∀ (bm : List String) (best : List (String × Int)),
    (md.map Prod.fst).Nodup →
    (m ∈ (md.foldl (isNewBestStep tracked) (bm, best)).1 ↔
      m ∈ bm ∨ ∃ v, dlookup m md = some v ∧ newBestCond tracked best m v = true) := by
  induction md with
  | nil =>
    intro bm best _
    simp [dlookup]
  | cons e rest ih =>
    intro bm best hnd
    obtain ⟨k, v⟩ := e
    simp only [List.map_cons, List.nodup_cons] at hnd
    obtain ⟨hk, hrest⟩ := hnd
    rw [List.foldl_cons, isNewBestStep_eq]
    by_cases hkm : k = m
    · subst hkm
      have hlk : dlookup k ((k, v) :: rest) = some v := by simp [dlookup]
      rw [isNewBest_fold_marked_notMem tracked k rest _ _ hk, hlk]
      by_cases hc : newBestCond tracked best k v
      · rw [if_pos hc]
        simp [hc]
      · rw [if_neg hc]
        simp only [Option.some.injEq]
        constructor
        · intro hin; exact Or.inl hin
        · rintro (hin | ⟨v', hv', hcv'⟩)
          · exact hin
          · subst hv'
            exact absurd hcv' (by simpa using hc)
    · have hlk : dlookup m ((k, v) :: rest) = dlookup m rest := by simp [dlookup, hkm]
      rw [hlk]
      by_cases hc : newBestCond tracked best k v
      · rw [if_pos hc, if_pos hc, ih _ _ hrest]
        have hcong : ∀ v', newBestCond tracked (dinsert k v best) m v' =
            newBestCond tracked best m v' := fun v' =>
          newBestCond_congr tracked m v' (dlookup_dinsert_ne hkm v best)
        have hmk : m ≠ k := fun hh => hkm hh.symm
        simp [hcong, hmk]
      · rw [if_neg hc, if_neg hc, ih _ _ hrest]

/-- When no key of the snapshot is tracked, `is_new_best` marks nothing
and leaves the record unchanged (the source only reaches `is_new_best`
behind a non-disjointness test; this lemma makes the test immaterial). -/
theorem isNewBest_fold_no_common (tracked : List (String × String))
    (md : MetricDict) : ∀ (bm : List String) (best : List (String × Int)),
    (∀ e ∈ md, dlookup e.1 tracked = none) →
    md.foldl (isNewBestStep tracked) (bm, best) = (bm, best) := by
  induction md with
  | nil => intro bm best _; rfl
  | cons e rest ih =>
    intro bm best h
    obtain ⟨k, v⟩ := e
    have hk : dlookup k tracked = none := h (k, v) (List.mem_cons_self _ _)
    rw [List.foldl_cons, isNewBestStep_eq, newBestCond_untracked hk]
    simp only [Bool.false_eq_true, if_false]
    exact ih _ _ fun e he => h e (List.mem_cons_of_mem _ he)

/-! ### `checkpoint` below and at-or-above the runway -/

theorem checkpoint_lt {s : CState} {i : Int} {md : MetricDict}
    (h : i < s.checkpoint_runway) :
    checkpoint s i md = (s, { notices := 0, saved := [], copies := [] }) := by
  simp [checkpoint, h]

theorem checkpoint_ge (s : CState) (i : Int) (md : MetricDict)
    (h : s.checkpoint_runway ≤ i) :
    checkpoint s i md =
      ({ s with checkpoint_condition_met := true,
                best_metric_dict :=
                  (is_new_best s.checkpoint_task_metrics s.best_metric_dict md).2 },
       { notices := if s.checkpoint_condition_met then 0 else 1,
         saved := [s.checkpoint_dir ++ "/checkpoint_" ++ toString i ++ ".pth"],
         copies := (is_new_best s.checkpoint_task_metrics s.best_metric_dict md).1.map
           fun metric =>
             (s.checkpoint_dir ++ "/checkpoint_" ++ toString i ++ ".pth",
              s.checkpoint_dir ++ "/best_model_" ++ sanitize metric ++ ".pth") }) := by
  obtain ⟨dir, cl, run, met, cmetric, ctm, freq, best⟩ := s
  simp only at h ⊢
  have hlt : ¬ i < run := not_lt.2 h
  by_cases hany : md.any fun e => (dlookup e.1 ctm).isSome
  · rcases hnb : is_new_best ctm best md with ⟨nb, best2⟩
    cases met <;> simp [checkpoint, hlt, h, hany, hnb]
  · have hnone : ∀ e ∈ md, dlookup e.1 ctm = none := by
      intro e he
      have h1 := List.any_eq_false.1 (Bool.not_eq_true _ ▸ hany) e he
      rw [Option.eq_none_iff_forall_not_mem]
      intro x hx
      exact absurd (Option.isSome_iff_exists.2 ⟨x, hx⟩) (by simpa using h1)
    have hnb : is_new_best ctm best md = ([], best) :=
      isNewBest_fold_no_common ctm md [] best hnone
    cases met <;> simp [checkpoint, hlt, h, hany, hnb]

theorem checkpoint_fields_const (s : CState) (i : Int) (md : MetricDict) :
    (checkpoint s i md).1.checkpoint_task_metrics = s.checkpoint_task_metrics ∧
    (checkpoint s i md).1.checkpoint_runway = s.checkpoint_runway ∧
    (checkpoint s i md).1.checkpoint_dir = s.checkpoint_dir ∧
    (checkpoint s i md).1.checkpoint_metric = s.checkpoint_metric ∧
    (checkpoint s i md).1.checkpoint_clear = s.checkpoint_clear ∧
    (checkpoint s i md).1.checkpoint_freq = s.checkpoint_freq := by
  by_cases h : i < s.checkpoint_runway
  · rw [checkpoint_lt h]
    exact ⟨rfl, rfl, rfl, rfl, rfl, rfl⟩
  · rw [checkpoint_ge s i md (not_lt.1 h)]
    exact ⟨rfl, rfl, rfl, rfl, rfl, rfl⟩

theorem checkpoint_met_mono (s : CState) (i : Int) (md : MetricDict)
    (h : s.checkpoint_condition_met = true) :
    (checkpoint s i md).1.checkpoint_condition_met = true := by
  by_cases hlt : i < s.checkpoint_runway
  · rw [checkpoint_lt hlt]
    exact h
  · rw [checkpoint_ge s i md (not_lt.1 hlt)]

theorem checkpoint_met_ge (s : CState) (i : Int) (md : MetricDict)
    (h : s.checkpoint_runway ≤ i) :
    (checkpoint s i md).1.checkpoint_condition_met = true := by
  rw [checkpoint_ge s i md h]

theorem checkpoint_notices_of_met (s : CState) (i : Int) (md : MetricDict)
    (h : s.checkpoint_condition_met = true) :
    (checkpoint s i md).2.notices = 0 := by
  by_cases hlt : i < s.checkpoint_runway
  · rw [checkpoint_lt hlt]
  · rw [checkpoint_ge s i md (not_lt.1 hlt)]
    simp [h]

theorem checkpoint_best_ge (s : CState) (i : Int) (md : MetricDict)
    (h : s.checkpoint_runway ≤ i) :
    (checkpoint s i md).1.best_metric_dict =
      (is_new_best s.checkpoint_task_metrics s.best_metric_dict md).2 := by
  rw [checkpoint_ge s i md h]

/-! ### Lemmas about `runCk` -/

theorem runCk_nil (s : CState) : runCk s [] = (s, { notices := 0, saved := [], copies := [] }) :=
  rfl

theorem runCk_cons (s : CState) (e : Int × MetricDict) (rest : List (Int × MetricDict)) :
    runCk s (e :: rest) =
      ((runCk (checkpoint s e.1 e.2).1 rest).1,
       { notices := (checkpoint s e.1 e.2).2.notices +
           (runCk (checkpoint s e.1 e.2).1 rest).2.notices,
         saved := (checkpoint s e.1 e.2).2.saved ++
           (runCk (checkpoint s e.1 e.2).1 rest).2.saved,
         copies := (checkpoint s e.1 e.2).2.copies ++
           (runCk (checkpoint s e.1 e.2).1 rest).2.copies }) :=
  rfl

theorem runCk_fields_const (evs : List (Int × MetricDict)) : ∀ s : CState,
    (runCk s evs).1.checkpoint_task_metrics = s.checkpoint_task_metrics ∧
    (runCk s evs).1.checkpoint_runway = s.checkpoint_runway := by
  induction evs with
  | nil => intro s; exact ⟨rfl, rfl⟩
  | cons e rest ih =>
    intro s
    rw [runCk_cons]
    obtain ⟨h1, h2⟩ := ih (checkpoint s e.1 e.2).1
    obtain ⟨g1, g2, _⟩ := checkpoint_fields_const s e.1 e.2
    exact ⟨h1.trans g1, h2.trans g2⟩

theorem runCk_of_met (evs : List (Int × MetricDict)) : ∀ s : CState,
    s.checkpoint_condition_met = true →
    (runCk s evs).2.notices = 0 ∧ (runCk s evs).1.checkpoint_condition_met = true := by
  induction evs with
  | nil => intro s h; exact ⟨rfl, h⟩
  | cons e rest ih =>
    intro s h
    rw [runCk_cons]
    obtain ⟨h1, h2⟩ := ih (checkpoint s e.1 e.2).1 (checkpoint_met_mono s e.1 e.2 h)
    refine ⟨?_, h2⟩
    simp [checkpoint_notices_of_met s e.1 e.2 h, h1]

/-- Starting with the gate closed, a run that contains at least one
iteration at or past the runway logs the runway notice exactly once and
ends with the gate open. -/
theorem runCk_crossing (evs : List (Int × MetricDict)) : ∀ s : CState,
    s.checkpoint_condition_met = false →
    (∃ e ∈ evs, s.checkpoint_runway ≤ e.1) →
    (runCk s evs).2.notices = 1 ∧ (runCk s evs).1.checkpoint_condition_met = true := by
  induction evs with
  | nil =>
    intro s _ hex
    simp at hex
  | cons e rest ih =>
    intro s hmet hex
    rw [runCk_cons]
    by_cases hlt : e.1 < s.checkpoint_runway
    · have hs1 : checkpoint s e.1 e.2 = (s, { notices := 0, saved := [], copies := [] }) :=
        checkpoint_lt hlt
      have hex' : ∃ e' ∈ rest, s.checkpoint_runway ≤ e'.1 := by
        rcases hex with ⟨e', he', hge⟩
        rcases List.mem_cons.1 he' with rfl | hmem
        · exact absurd hge (not_le.2 hlt)
        · exact ⟨e', hmem, hge⟩
      obtain ⟨h1, h2⟩ := ih s hmet hex'
      rw [hs1]
      exact ⟨by simpa using h1, h2⟩
    · have hge : s.checkpoint_runway ≤ e.1 := not_lt.1 hlt
      have hnot : (checkpoint s e.1 e.2).2.notices = 1 := by
        rw [checkpoint_ge s e.1 e.2 hge]
        simp [hmet]
      obtain ⟨h1, h2⟩ := runCk_of_met rest (checkpoint s e.1 e.2).1
        (checkpoint_met_ge s e.1 e.2 hge)
      rw [hnot, h1]
      exact ⟨rfl, h2⟩

/-! ### Best-record evolution over a run -/

theorem isNewBest_lookup_max {tracked : List (String × String)} {m : String}
    (hmode : dlookup m tracked = some "max") (best : List (String × Int))
    {md : MetricDict} (hnd : (md.map Prod.fst).Nodup) :
    dlookup m (is_new_best tracked best md).2 =
      match dlookup m md with
      | none => dlookup m best
      | some v => some (oBetter max (dlookup m best) v) := by
  rw [is_new_best, isNewBest_fold_lookup tracked m md [] best hnd]
  rcases hmd : dlookup m md with _ | v
  · rfl
  · simp only [expectedLookup]
    rcases hb : dlookup m best with _ | b
    · rw [newBestCond_first hmode hb]
      simp [oBetter]
    · rw [newBestCond_seen hmode hb]
      by_cases hv : v > b
      · simp [hv, oBetter, max_eq_right (le_of_lt hv)]
      · simp [hv, oBetter, max_eq_left (not_lt.1 hv)]

theorem isNewBest_lookup_min {tracked : List (String × String)} {m : String}
    (hmode : dlookup m tracked = some "min") (best : List (String × Int))
    {md : MetricDict} (hnd : (md.map Prod.fst).Nodup) :
    dlookup m (is_new_best tracked best md).2 =
      match dlookup m md with
      | none => dlookup m best
      | some v => some (oBetter min (dlookup m best) v) := by
  rw [is_new_best, isNewBest_fold_lookup tracked m md [] best hnd]
  rcases hmd : dlookup m md with _ | v
  · rfl
  · simp only [expectedLookup]
    rcases hb : dlookup m best with _ | b
    · rw [newBestCond_first hmode hb]
      simp [oBetter]
    · rw [newBestCond_seen hmode hb]
      by_cases hv : v < b
      · simp [hv, oBetter, min_eq_right (le_of_lt hv)]
      · simp [hv, oBetter, min_eq_left (not_lt.1 hv)]

theorem runCk_lookup_max (evs : List (Int × MetricDict)) (m : String) : ∀ s : CState,
    dlookup m s.checkpoint_task_metrics = some "max" →
    (∀ e ∈ evs, s.checkpoint_runway ≤ e.1) →
    (∀ e ∈ evs, (e.2.map Prod.fst).Nodup) →
    dlookup m (runCk s evs).1.best_metric_dict =
      foldBest max (dlookup m s.best_metric_dict) (suppliedVals m evs) := by
  induction evs with
  | nil => intro s _ _ _; rfl
  | cons e rest ih =>
    intro s hmode hge hnd
    rw [runCk_cons]
    have hge1 : s.checkpoint_runway ≤ e.1 := hge e (List.mem_cons_self _ _)
    have hb1 := checkpoint_best_ge s e.1 e.2 hge1
    obtain ⟨htr, hrw⟩ := checkpoint_fields_const s e.1 e.2
    have hmode1 : dlookup m (checkpoint s e.1 e.2).1.checkpoint_task_metrics = some "max" := by
      rw [htr]; exact hmode
    have hge2 : ∀ e' ∈ rest, (checkpoint s e.1 e.2).1.checkpoint_runway ≤ e'.1 := by
      intro e' he'
      rw [hrw.1]
      exact hge e' (List.mem_cons_of_mem _ he')
    have hnd2 : ∀ e' ∈ rest, (e'.2.map Prod.fst).Nodup := fun e' he' =>
      hnd e' (List.mem_cons_of_mem _ he')
    have := ih (checkpoint s e.1 e.2).1 hmode1 hge2 hnd2
    rw [this, hb1, isNewBest_lookup_max hmode s.best_metric_dict
      (hnd e (List.mem_cons_self _ _))]
    rcases hmd : dlookup m e.2 with _ | v
    · simp [suppliedVals, hmd]
    · simp [suppliedVals, hmd, foldBest]

theorem runCk_lookup_min (evs : List (Int × MetricDict)) (m : String) : ∀ s : CState,
    dlookup m s.checkpoint_task_metrics = some "min" →
    (∀ e ∈ evs, s.checkpoint_runway ≤ e.1) →
    (∀ e ∈ evs, (e.2.map Prod.fst).Nodup) →
    dlookup m (runCk s evs).1.best_metric_dict =
      foldBest min (dlookup m s.best_metric_dict) (suppliedVals m evs) := by
  induction evs with
  | nil => intro s _ _ _; rfl
  | cons e rest ih =>
    intro s hmode hge hnd
    rw [runCk_cons]
    have hge1 : s.checkpoint_runway ≤ e.1 := hge e (List.mem_cons_self _ _)
    have hb1 := checkpoint_best_ge s e.1 e.2 hge1
    obtain ⟨htr, hrw⟩ := checkpoint_fields_const s e.1 e.2
    have hmode1 : dlookup m (checkpoint s e.1 e.2).1.checkpoint_task_metrics = some "min" := by
      rw [htr]; exact hmode
    have hge2 : ∀ e' ∈ rest, (checkpoint s e.1 e.2).1.checkpoint_runway ≤ e'.1 := by
      intro e' he'
      rw [hrw.1]
      exact hge e' (List.mem_cons_of_mem _ he')
    have hnd2 : ∀ e' ∈ rest, (e'.2.map Prod.fst).Nodup := fun e' he' =>
      hnd e' (List.mem_cons_of_mem _ he')
    have := ih (checkpoint s e.1 e.2).1 hmode1 hge2 hnd2
    rw [this, hb1, isNewBest_lookup_min hmode s.best_metric_dict
      (hnd e (List.mem_cons_self _ _))]
    rcases hmd : dlookup m e.2 with _ | v
    · simp [suppliedVals, hmd]
    · simp [suppliedVals, hmd, foldBest]

theorem foldBest_some (f : Int → Int → Int) (l : List Int) : ∀ b : Int,
    foldBest f (some b) l = some (l.foldl f b) := by
  induction l with
  | nil => intro b; rfl
  | cons v r ih => intro b; rw [foldBest, List.foldl_cons, oBetter, ih]

/-- `foldBest max` starting from no record is the list maximum. -/
theorem foldBest_max_eq (l : List Int) : foldBest max none l = l.max? := by
  cases l with
  | nil => rfl
  | cons a as => rw [foldBest, oBetter, foldBest_some]; rfl

/-- `foldBest min` starting from no record is the list minimum. -/
theorem foldBest_min_eq (l : List Int) : foldBest min none l = l.min? := by
  cases l with
  | nil => rfl
  | cons a as => rw [foldBest, oBetter, foldBest_some]; rfl

/-! ### Lemmas about `clear` and the glob pattern -/

theorem leadsWith_head {a : Char} {as l : List Char}
    (h : leadsWith (a :: as) l = true) : ∃ t, l = a :: t ∧ leadsWith as t = true := by
  cases l with
  | nil => exact absurd h (by simp [leadsWith])
  | cons b bs =>
    rw [leadsWith, Bool.and_eq_true, decide_eq_true_iff] at h
    exact ⟨bs, by rw [h.1], h.2⟩

/-- A `best_model_*` file name never matches the `checkpoint_*.pth`
pattern that `clear` deletes. -/
theorem best_model_not_checkpoint_glob (name : String)
    (h : leadsWith "best_model_".data name.data = true) :
    matchesCheckpointGlob name = false := by
  obtain ⟨t, ht, _⟩ := leadsWith_head (show leadsWith ('b' :: "est_model_".data) name.data = true from h)
  unfold matchesCheckpointGlob
  rw [show "checkpoint_".data = 'c' :: "heckpoint_".data from rfl, ht, leadsWith]
  simp

theorem removeLoop_no_fail (fails : String → Bool) (l : List String)
    (h : ∀ f ∈ l, fails f = false) : removeLoop fails l = (l, none) := by
  induction l with
  | nil => rfl
  | cons f rest ih =>
    rw [removeLoop, h f (List.mem_cons_self _ _)]
    simp only [Bool.false_eq_true, if_false]
    rw [ih fun g hg => h g (List.mem_cons_of_mem _ hg)]

theorem removeLoop_fail_first (fails : String → Bool) (pre : List String) :
    ∀ (f : String) (post : List String), (∀ g ∈ pre, fails g = false) → fails f = true →
    removeLoop fails (pre ++ f :: post) = (pre ++ [f], some f) := by
  induction pre with
  | nil =>
    intro f post _ hf
    rw [List.nil_append, removeLoop, hf]
    rfl
  | cons g rest ih =>
    intro f post hpre hf
    rw [List.cons_append, removeLoop, hpre g (List.mem_cons_self _ _)]
    simp only [Bool.false_eq_true, if_false]
    rw [ih f post (fun g' hg' => hpre g' (List.mem_cons_of_mem _ hg')) hf]
    rfl

/-! ### Lemmas about `_make_metric_map` and construction -/

theorem entryValid_elim {p : String} (hp : entryValid p = true) :
    ∃ metric mode, pySplit ':' p = [metric, mode] ∧ (mode = "min" ∨ mode = "max") := by
  rcases hq : pySplit ':' p with _ | ⟨a, _ | ⟨b, _ | ⟨c, l⟩⟩⟩ <;>
    simp only [entryValid, hq] at hp
  · exact absurd hp (by simp)
  · exact absurd hp (by simp)
  · exact ⟨a, b, rfl, by simpa using hp⟩
  · exact absurd hp (by simp)

theorem makeMetricMapAux_malformed (pre : List String) :
    ∀ (acc : List (String × String)) (e : String) (post : List String),
    (∀ p ∈ pre, entryValid p = true) → (pySplit ':' e).length ≠ 2 →
    makeMetricMapAux acc (pre ++ e :: post) = .error (.malformedEntry e) := by
  induction pre with
  | nil =>
    intro acc e post _ hlen
    rcases hsp : pySplit ':' e with _ | ⟨a, _ | ⟨b, _ | ⟨c, l⟩⟩⟩
    · simp [makeMetricMapAux, hsp]
    · simp [makeMetricMapAux, hsp]
    · exact absurd (by simp [hsp]) hlen
    · simp [makeMetricMapAux, hsp]
  | cons p rest ih =>
    intro acc e post hval hlen
    obtain ⟨metric, mode, hq, hb⟩ := entryValid_elim (hval p (List.mem_cons_self _ _))
    simp only [List.cons_append, makeMetricMapAux, hq]
    rw [if_pos hb]
    exact ih _ e post (fun q hmem => hval q (List.mem_cons_of_mem _ hmem)) hlen

theorem makeMetricMapAux_badmode (pre : List String) :
    ∀ (acc : List (String × String)) (e metric mode : String) (post : List String),
    (∀ p ∈ pre, entryValid p = true) → pySplit ':' e = [metric, mode] →
    mode ≠ "min" → mode ≠ "max" →
    makeMetricMapAux acc (pre ++ e :: post) = .error (.badMode metric mode) := by
  induction pre with
  | nil =>
    intro acc e metric mode post _ hsp h1 h2
    simp only [List.nil_append, makeMetricMapAux, hsp]
    rw [if_neg (by tauto)]
  | cons p rest ih =>
    intro acc e metric mode post hval hsp h1 h2
    obtain ⟨metric', mode', hq, hb⟩ := entryValid_elim (hval p (List.mem_cons_self _ _))
    simp only [List.cons_append, makeMetricMapAux, hq]
    rw [if_pos hb]
    exact ih _ e metric mode post (fun q hmem => hval q (List.mem_cons_of_mem _ hmem)) hsp h1 h2

theorem mkCheckpointer_error_primary (cfg : Config) (err : CfgError)
    (h : _make_metric_map (some [cfg.checkpoint_metric]) = .error err) :
    mkCheckpointer cfg = .error err := by
  rw [mkCheckpointer, h]
  rfl

theorem mkCheckpointer_error_task (cfg : Config) (cm : List (String × String))
    (err : CfgError) (h1 : _make_metric_map (some [cfg.checkpoint_metric]) = .ok cm)
    (h2 : _make_metric_map cfg.checkpoint_task_metrics = .error err) :
    mkCheckpointer cfg = .error err := by
  rw [mkCheckpointer, h1]
  show (_make_metric_map cfg.checkpoint_task_metrics).bind _ = _
  rw [h2]
  rfl

theorem mkCheckpointer_ok_iff (cfg : Config) (cm ctm : List (String × String))
    (h1 : _make_metric_map (some [cfg.checkpoint_metric]) = .ok cm)
    (h2 : _make_metric_map cfg.checkpoint_task_metrics = .ok ctm) :
    mkCheckpointer cfg =
      (if cfg.evaluation_freq * cfg.checkpoint_factor ≤ 0 then
        .error (.badFreq (cfg.evaluation_freq * cfg.checkpoint_factor))
      else
        .ok { checkpoint_dir := cfg.checkpoint_dir
              checkpoint_clear := cfg.checkpoint_clear
              checkpoint_runway := cfg.checkpoint_runway
              checkpoint_condition_met := false
              checkpoint_metric := cm
              checkpoint_task_metrics := dupdate ctm cm
              checkpoint_freq := cfg.evaluation_freq * cfg.checkpoint_factor
              best_metric_dict := [] }) := by
  rw [mkCheckpointer, h1]
  show (_make_metric_map cfg.checkpoint_task_metrics).bind _ = _
  rw [h2]
  rfl

theorem mkCheckpointer_ok_shape (cfg : Config) (s : CState)
    (h : mkCheckpointer cfg = .ok s) :
    s.best_metric_dict = [] ∧ s.checkpoint_condition_met = false ∧
    s.checkpoint_freq = cfg.evaluation_freq * cfg.checkpoint_factor := by
  rcases h1 : _make_metric_map (some [cfg.checkpoint_metric]) with e1 | cm
  · rw [mkCheckpointer_error_primary cfg e1 h1] at h
    exact Except.noConfusion h
  · rcases h2 : _make_metric_map cfg.checkpoint_task_metrics with e2 | ctm
    · rw [mkCheckpointer_error_task cfg cm e2 h1 h2] at h
      exact Except.noConfusion h
    · rw [mkCheckpointer_ok_iff cfg cm ctm h1 h2] at h
      by_cases hf : cfg.evaluation_freq * cfg.checkpoint_factor ≤ 0
      · rw [if_pos hf] at h
        exact Except.noConfusion h
      · rw [if_neg hf] at h
        injection h with h3
        subst h3
        exact ⟨rfl, rfl, rfl⟩

/-! ### The untracked-metrics invariant -/

theorem isNewBest_fold_untracked_inv (tracked : List (String × String))
    (md : MetricDict) : ∀ (bm : List String) (best : List (String × Int)),
    (∀ m', dlookup m' tracked = none → dlookup m' best = none) →
    ∀ m', dlookup m' tracked = none →
      dlookup m' (md.foldl (isNewBestStep tracked) (bm, best)).2 = none := by
  induction md with
  | nil => intro bm best hinv; exact hinv
  | cons e rest ih =>
    intro bm best hinv
    obtain ⟨k, v⟩ := e
    rw [List.foldl_cons, isNewBestStep_eq]
    by_cases hc : newBestCond tracked best k v
    · rw [if_pos hc, if_pos hc]
      apply ih
      intro m' hm'
      have hkm : k ≠ m' := by
        rintro rfl
        rw [newBestCond_untracked hm'] at hc
        exact Bool.noConfusion hc
      rw [dlookup_dinsert_ne hkm, hinv m' hm']
    · rw [if_neg hc, if_neg hc]
      exact ih _ _ hinv

theorem runCk_untracked_inv (evs : List (Int × MetricDict)) : ∀ s : CState,
    (∀ m', dlookup m' s.checkpoint_task_metrics = none →
      dlookup m' s.best_metric_dict = none) →
    ∀ m', dlookup m' s.checkpoint_task_metrics = none →
      dlookup m' (runCk s evs).1.best_metric_dict = none := by
  induction evs with
  | nil => intro s hinv; exact hinv
  | cons e rest ih =>
    intro s hinv
    rw [runCk_cons]
    obtain ⟨htr, _⟩ := checkpoint_fields_const s e.1 e.2
    have hinv1 : ∀ m', dlookup m' (checkpoint s e.1 e.2).1.checkpoint_task_metrics = none →
        dlookup m' (checkpoint s e.1 e.2).1.best_metric_dict = none := by
      rw [htr]
      by_cases hlt : e.1 < s.checkpoint_runway
      · rw [checkpoint_lt hlt]
        exact hinv
      · rw [checkpoint_best_ge s e.1 e.2 (not_lt.1 hlt), is_new_best]
        exact isNewBest_fold_untracked_inv s.checkpoint_task_metrics e.2 [] _ hinv
    intro m' hm'
    exact ih (checkpoint s e.1 e.2).1 hinv1 m' (htr ▸ hm')

/-! ### The claims -/

/-- C1: for every tracked metric `m` and every sequence of checkpoint
events at or after the runway, the best-metric record for `m` after
processing equals the extremum of all values supplied for `m` (maximum
for mode `max`, minimum for mode `min`) from its first occurrence onward,
and a value equal to the current record is never marked as a new best
(comparisons are strict). -/
theorem claim_C1_best_extremum (s : CState) (evs : List (Int × MetricDict)) (m : String)
    (hbest : s.best_metric_dict = [])
    (hge : ∀ e ∈ evs, s.checkpoint_runway ≤ e.1)
    (hnd : ∀ e ∈ evs, (e.2.map Prod.fst).Nodup) :
    (dlookup m s.checkpoint_task_metrics = some "max" →
      dlookup m (runCk s evs).1.best_metric_dict = (suppliedVals m evs).max?) ∧
    (dlookup m s.checkpoint_task_metrics = some "min" →
      dlookup m (runCk s evs).1.best_metric_dict = (suppliedVals m evs).min?) ∧
    (∀ (best : List (String × Int)) (md : MetricDict) (v : Int),
      (md.map Prod.fst).Nodup → dlookup m best = some v → dlookup m md = some v →
      m ∉ (is_new_best s.checkpoint_task_metrics best md).1) := by
  refine ⟨fun hmode => ?_, fun hmode => ?_, fun best md v hnd' hb hm hmem => ?_⟩
  · rw [runCk_lookup_max evs m s hmode hge hnd, hbest]
    exact foldBest_max_eq _
  · rw [runCk_lookup_min evs m s hmode hge hnd, hbest]
    exact foldBest_min_eq _
  · rw [is_new_best] at hmem
    rcases (isNewBest_fold_marked s.checkpoint_task_metrics m md [] best hnd').1 hmem with
      h | ⟨v', hv', hc⟩
    · exact absurd h (List.not_mem_nil m)
    · rw [hm] at hv'
      injection hv' with hv'
      subst hv'
      rcases htr : dlookup m s.checkpoint_task_metrics with _ | mode
      · rw [newBestCond_untracked htr] at hc
        exact Bool.noConfusion hc
      · rw [newBestCond_seen htr hb] at hc
        simp at hc

/-- C1 witness: `acc` is tracked as `max`; offering 3, 5, 4 ends with
record 5, the maximum. -/
theorem claim_C1_witness :
    dlookup "acc" (runCk exState
      [(0, [("acc", 3)]), (1, [("acc", 5)]), (2, [("acc", 4)])]).1.best_metric_dict =
      some 5 := by
  have h := (claim_C1_best_extremum exState
    [(0, [("acc", 3)]), (1, [("acc", 5)]), (2, [("acc", 4)])] "acc"
    rfl (by decide) (by decide)).1 (by decide)
  rw [h]
  decide

/-- C2: a `checkpoint` call below the runway is a pure no-op (no save,
no copy, no notice, state unchanged); at or above the runway (including
equality) the snapshot file is written. -/
theorem claim_C2_runway_gate (s : CState) (i : Int) (md : MetricDict) :
    (i < s.checkpoint_runway →
      checkpoint s i md = (s, { notices := 0, saved := [], copies := [] })) ∧
    (s.checkpoint_runway ≤ i →
      (checkpoint s i md).2.saved =
        [s.checkpoint_dir ++ "/checkpoint_" ++ toString i ++ ".pth"]) := by
  constructor
  · exact fun h => checkpoint_lt h
  · intro h
    rw [checkpoint_ge s i md h]

/-- C2 witness: at runway 0, iteration -1 is a no-op and iteration 0
(equal to the runway) writes the snapshot. -/
theorem claim_C2_witness :
    checkpoint exState (-1) [("acc", 3)] =
      (exState, { notices := 0, saved := [], copies := [] }) ∧
    (checkpoint exState 0 [("acc", 3)]).2.saved = ["d/checkpoint_0.pth"] := by
  constructor
  · exact (claim_C2_runway_gate exState (-1) [("acc", 3)]).1 (by decide)
  · rw [(claim_C2_runway_gate exState 0 [("acc", 3)]).2 (by decide)]
    rfl

/-- C3: starting with the gate closed, over a monotonically increasing
iteration sequence that reaches the runway, the runway notice is logged
exactly once and the gate ends open; moreover the gate never re-closes
(once `checkpoint_condition_met` is true, any further call keeps it true). -/
theorem claim_C3_gate_once (s : CState) (evs : List (Int × MetricDict))
    (hclosed : s.checkpoint_condition_met = false)
    (_hmono : List.Pairwise (· ≤ ·) (evs.map Prod.fst))
    (hcross : ∃ e ∈ evs, s.checkpoint_runway ≤ e.1) :
    (runCk s evs).2.notices = 1 ∧
    (runCk s evs).1.checkpoint_condition_met = true ∧
    (∀ (s' : CState) (i : Int) (md : MetricDict),
      s'.checkpoint_condition_met = true →
      (checkpoint s' i md).1.checkpoint_condition_met = true) := by
  obtain ⟨h1, h2⟩ := runCk_crossing evs s hclosed hcross
  exact ⟨h1, h2, checkpoint_met_mono⟩

/-- C3 witness: iterations -1, 0, 1 against runway 0 log the notice
exactly once and leave the gate open. -/
theorem claim_C3_witness :
    (runCk exState [(-1, []), (0, []), (1, [])]).2.notices = 1 ∧
    (runCk exState [(-1, []), (0, []), (1, [])]).1.checkpoint_condition_met = true := by
  obtain ⟨h1, h2, _⟩ := claim_C3_gate_once exState [(-1, []), (0, []), (1, [])]
    rfl (by decide) (by decide)
  exact ⟨h1, h2⟩

/-- C4 counterexample: with the clear flag set and two matching files,
a deletion failure on the first aborts the loop, so the second file's
deletion is never attempted — refuting the claimed best-effort behaviour. -/
theorem claim_C4_counterexample :
    ¬ ("checkpoint_2.pth" ∈
      (clear true (fun g => g == "checkpoint_1.pth")
        ["checkpoint_1.pth", "checkpoint_2.pth"]).1) := by
  decide

/-- C4 (amended): when `clear` runs with the flag set and deleting some
matching file raises, the operation aborts at the first failing file:
it attempts exactly the non-failing files before it plus that file, the
error propagates, and the matching files after it are not attempted. -/
theorem claim_C4_fail_fast (fails : String → Bool) (files pre : List String)
    (f : String) (post : List String)
    (hglob : globCheckpoints files = pre ++ f :: post)
    (hpre : ∀ g ∈ pre, fails g = false) (hf : fails f = true) :
    clear true fails files = (pre ++ [f], some f) := by
  have : clear true fails files = removeLoop fails (globCheckpoints files) := by
    simp [clear]
  rw [this, hglob]
  exact removeLoop_fail_first fails pre f post hpre hf

/-- C4 witness: concrete fail-fast run of `clear`. -/
theorem claim_C4_witness :
    clear true (fun g => g == "checkpoint_1.pth")
      ["checkpoint_1.pth", "checkpoint_2.pth"] =
      (["checkpoint_1.pth"], some "checkpoint_1.pth") :=
  claim_C4_fail_fast (fun g => g == "checkpoint_1.pth")
    ["checkpoint_1.pth", "checkpoint_2.pth"] [] "checkpoint_1.pth"
    ["checkpoint_2.pth"] (by decide) (by decide) (by decide)

/-- C5: `clear` with the flag disabled deletes nothing; with the flag
enabled it deletes exactly the files matching `checkpoint_*.pth`, never
a `best_model_*` file, and raises nothing when no file matches. -/
theorem claim_C5_clear_frame (files : List String) :
    (∀ fails, clear false fails files = ([], none)) ∧
    ((clear true (fun _ => false) files).1 = globCheckpoints files ∧
      (clear true (fun _ => false) files).2 = none) ∧
    (∀ f, f ∈ globCheckpoints files ↔ f ∈ files ∧ matchesCheckpointGlob f = true) ∧
    (∀ f, leadsWith "best_model_".data f.data = true →
      f ∉ (clear true (fun _ => false) files).1) ∧
    (∀ fails, globCheckpoints files = [] → clear true fails files = ([], none)) := by
  have hclear : clear true (fun _ => false) files = (globCheckpoints files, none) := by
    simp [clear]
    exact removeLoop_no_fail _ _ fun f _ => rfl
  refine ⟨fun fails => by simp [clear], ⟨by rw [hclear], by rw [hclear]⟩,
    fun f => ?_, fun f hf hmem => ?_, fun fails h0 => ?_⟩
  · simp [globCheckpoints, List.mem_filter]
  · rw [hclear] at hmem
    have := (List.mem_filter.1 hmem).2
    rw [best_model_not_checkpoint_glob f hf] at this
    exact Bool.noConfusion this
  · simp [clear, h0, removeLoop]

/-- C5 witness: a transient checkpoint is deleted, the best-model and
unrelated files are untouched, and the disabled flag deletes nothing. -/
theorem claim_C5_witness :
    (clear true (fun _ => false) exFiles).1 = ["checkpoint_1.pth"] ∧
    "best_model_acc.pth" ∉ (clear true (fun _ => false) exFiles).1 ∧
    clear false (fun _ => false) exFiles = ([], none) := by
  obtain ⟨h1, h2, h3, h4, h5⟩ := claim_C5_clear_frame exFiles
  exact ⟨h2.1.trans (by decide), h4 "best_model_acc.pth" (by decide), h1 _⟩

/-- C6: `load_best_model` with no best record for the primary metric
returns the input model unchanged and raises nothing. -/
theorem claim_C6_no_best (μ : Type) (s : CState) (primary : String) (model : μ)
    (loadFromPath : String → μ → μ)
    (h : dlookup primary s.best_metric_dict = none) :
    load_best_model s primary model loadFromPath = model := by
  simp [load_best_model, h]

/-- C6 witness: a fresh state returns the model untouched even when the
loader would change it. -/
theorem claim_C6_witness :
    load_best_model exState "acc" (7 : Nat) (fun _ m => m + 1) = 7 :=
  claim_C6_no_best Nat exState "acc" 7 (fun _ m => m + 1) rfl

/-- C7: metric-map construction fails with the error naming the
malformed entry for any entry that does not split into exactly two
colon-delimited parts, and with the error naming metric and mode for an
exactly-two-part entry whose mode is neither `min` nor `max`
(case-sensitively); both failures propagate out of construction, so no
checkpointing can follow them. -/
theorem claim_C7_config_errors :
    (∀ (pre : List String) (e : String) (post : List String),
      (∀ p ∈ pre, entryValid p = true) → (pySplit ':' e).length ≠ 2 →
      _make_metric_map (some (pre ++ e :: post)) = .error (.malformedEntry e)) ∧
    (∀ (pre : List String) (e metric mode : String) (post : List String),
      (∀ p ∈ pre, entryValid p = true) → pySplit ':' e = [metric, mode] →
      mode ≠ "min" → mode ≠ "max" →
      _make_metric_map (some (pre ++ e :: post)) = .error (.badMode metric mode)) ∧
    (∀ (cfg : Config) (err : CfgError),
      _make_metric_map (some [cfg.checkpoint_metric]) = .error err →
      mkCheckpointer cfg = .error err) ∧
    (∀ (cfg : Config) (cm : List (String × String)) (err : CfgError),
      _make_metric_map (some [cfg.checkpoint_metric]) = .ok cm →
      _make_metric_map cfg.checkpoint_task_metrics = .error err →
      mkCheckpointer cfg = .error err) := by
  refine ⟨fun pre e post hv hl => ?_, fun pre e metric mode post hv hs h1 h2 => ?_,
    mkCheckpointer_error_primary, mkCheckpointer_error_task⟩
  · exact makeMetricMapAux_malformed pre [] e post hv hl
  · exact makeMetricMapAux_badmode pre [] e metric mode post hv hs h1 h2

/-- C7 witness: the two spec examples (`"loss"` without a colon,
`"loss:avg"` with a bad mode), and the first one failing a whole
construction. -/
theorem claim_C7_witness :
    _make_metric_map (some ["loss"]) = .error (.malformedEntry "loss") ∧
    _make_metric_map (some ["acc:max", "loss:avg"]) = .error (.badMode "loss" "avg") ∧
    mkCheckpointer { exCfg with checkpoint_metric := "loss" } =
      .error (.malformedEntry "loss") := by
  obtain ⟨h1, h2, h3, _⟩ := claim_C7_config_errors
  refine ⟨h1 [] "loss" [] (by simp) (by decide),
    h2 ["acc:max"] "loss:avg" "loss" "avg" [] (by decide) (by decide)
      (by decide) (by decide), h3 _ _ ?_⟩
  exact h1 [] "loss" [] (by simp) (by decide)

/-- C8: with well-formed metric descriptors, construction computes
`checkpoint_freq = evaluation_freq * checkpoint_factor`, fails with the
cadence error exactly when the product is ≤ 0, and otherwise succeeds
with that cadence stored. -/
theorem claim_C8_freq (cfg : Config) (cm ctm : List (String × String))
    (h1 : _make_metric_map (some [cfg.checkpoint_metric]) = .ok cm)
    (h2 : _make_metric_map cfg.checkpoint_task_metrics = .ok ctm) :
    (cfg.evaluation_freq * cfg.checkpoint_factor ≤ 0 →
      mkCheckpointer cfg =
        .error (.badFreq (cfg.evaluation_freq * cfg.checkpoint_factor))) ∧
    (0 < cfg.evaluation_freq * cfg.checkpoint_factor →
      ∃ s, mkCheckpointer cfg = .ok s ∧
        s.checkpoint_freq = cfg.evaluation_freq * cfg.checkpoint_factor) := by
  rw [mkCheckpointer_ok_iff cfg cm ctm h1 h2]
  constructor
  · intro h
    rw [if_pos h]
  · intro h
    rw [if_neg (not_le.2 h)]
    exact ⟨_, rfl, rfl⟩

/-- C8 witness: factor 0 fails with the cadence error; 2 × 3 succeeds
with cadence 6. -/
theorem claim_C8_witness :
    mkCheckpointer exCfgBad = .error (.badFreq 0) ∧
    ∃ s, mkCheckpointer exCfg = .ok s ∧ s.checkpoint_freq = 6 := by
  constructor
  · exact (claim_C8_freq exCfgBad [("acc", "max")] [("loss", "min")]
      rfl rfl).1 (by decide)
  · obtain ⟨s, hs, hf⟩ := (claim_C8_freq exCfg [("acc", "max")] [("loss", "min")]
      rfl rfl).2 (by decide)
    exact ⟨s, hs, by rw [hf]; decide⟩

/-- C9: a metric name absent from the tracked-metrics map never gains an
entry in the best-metric record: `is_new_best` preserves this, any
sequence of `checkpoint` calls preserves it, and a freshly constructed
manager satisfies it. -/
theorem claim_C9_untracked_never_recorded :
    (∀ (tracked : List (String × String)) (best : List (String × Int))
      (md : MetricDict) (m : String),
      (∀ m', dlookup m' tracked = none → dlookup m' best = none) →
      dlookup m tracked = none →
      dlookup m (is_new_best tracked best md).2 = none) ∧
    (∀ (s : CState) (evs : List (Int × MetricDict)) (m : String),
      (∀ m', dlookup m' s.checkpoint_task_metrics = none →
        dlookup m' s.best_metric_dict = none) →
      dlookup m s.checkpoint_task_metrics = none →
      dlookup m (runCk s evs).1.best_metric_dict = none) ∧
    (∀ (cfg : Config) (s : CState), mkCheckpointer cfg = .ok s →
      ∀ m, dlookup m s.best_metric_dict = none) := by
  refine ⟨fun tracked best md m hinv hm => ?_, fun s evs m hinv hm => ?_,
    fun cfg s h m => ?_⟩
  · rw [is_new_best]
    exact isNewBest_fold_untracked_inv tracked md [] best hinv m hm
  · exact runCk_untracked_inv evs s hinv m hm
  · rw [(mkCheckpointer_ok_shape cfg s h).1]
    rfl

/-- C9 witness: a snapshot offering an untracked `rogue` metric leaves
no `rogue` entry in the record. -/
theorem claim_C9_witness :
    dlookup "rogue" (runCk exState
      [(0, [("rogue", 1), ("acc", 2)])]).1.best_metric_dict = none :=
  claim_C9_untracked_never_recorded.2.1 exState [(0, [("rogue", 1), ("acc", 2)])]
    "rogue" (fun _ _ => rfl) (by decide)

/-- C10: a descriptor with one colon and an empty metric-name part is
accepted: `":max"` (resp. `":min"`) yields a map binding the empty
string to that mode, so the empty string becomes a tracked metric. -/
theorem claim_C10_empty_metric_name :
    _make_metric_map (some [":max"]) = .ok [("", "max")] ∧
    _make_metric_map (some [":min"]) = .ok [("", "min")] ∧
    dlookup "" [("", "max")] = some "max" :=
  ⟨rfl, rfl, rfl⟩

end Checkpointer
